import Mathlib

/-!
Verification of the authentication core of the food-classification backend
(`Backend/App/services/auth_service.py`, `Backend/App/routers/auth.py`,
`Backend/App/models/user.py`, `Backend/App/utils/config.py`).

The embedding models:
* JWT issuance/verification (`jwt.encode` / `jwt.decode` with HS256) over a
  concrete, injective, dot-free serialization of the claims payload; the HMAC
  signature is modelled as a deterministic dot-free function of the key and the
  signing input (the only properties the code relies on);
* bcrypt password hashing as an idealized collision-free salted digest
  (`bcrypt.hashpw` / `bcrypt.checkpw`);
* the SQLAlchemy user table as a list of `User` rows, with `filter(...).first()`
  as `List.find?` and `offset/limit` as `List.drop`/`List.take`;
* pydantic request-body validation (`UserCreate`) over raw JSON fields that are
  absent, explicitly null, or present;
* the FastAPI endpoint handlers as total functions returning `Except HTTPError`.
-/

namespace FoodApp

/-! ### Decimal digit codec (model of the textual wire encoding) -/

/-- Little-endian base-10 digits of `n`, with explicit fuel (`fuel ≥ n` suffices). -/
def natToDigitsAux : Nat → Nat → List Nat
  | _, 0 => []
  | 0, _ + 1 => []
  | fuel + 1, n + 1 => (n + 1) % 10 :: natToDigitsAux fuel ((n + 1) / 10)

/-- Little-endian base-10 digits of `n`. -/
def natToDigitsLE (n : Nat) : List Nat := natToDigitsAux n n

/-- Value of a little-endian digit list. -/
def digitsToNatLE : List Nat → Nat
  | [] => 0
  | d :: ds => d + 10 * digitsToNatLE ds

theorem digitsToNatLE_natToDigitsAux :
    ∀ fuel n, n ≤ fuel → digitsToNatLE (natToDigitsAux fuel n) = n := by
  intro fuel
  induction fuel with
  | zero =>
    intro n hn
    interval_cases n
    rfl
  | succ f ih =>
    intro n hn
    cases n with
    | zero => rfl
    | succ m =>
      have hdiv : (m + 1) / 10 ≤ f := by
        have h1 : (m + 1) / 10 < m + 1 := Nat.div_lt_self (Nat.succ_pos m) (by norm_num)
        omega
      simp only [natToDigitsAux, digitsToNatLE, ih _ hdiv]
      omega

theorem digitsToNatLE_natToDigitsLE (n : Nat) :
    digitsToNatLE (natToDigitsLE n) = n :=
  digitsToNatLE_natToDigitsAux n n (Nat.le_refl n)

theorem natToDigitsAux_lt_ten :
    ∀ fuel n d, d ∈ natToDigitsAux fuel n → d < 10 := by
  intro fuel
  induction fuel with
  | zero =>
    intro n d hd
    cases n <;> simp [natToDigitsAux] at hd
  | succ f ih =>
    intro n d hd
    cases n with
    | zero => simp [natToDigitsAux] at hd
    | succ m =>
      simp only [natToDigitsAux, List.mem_cons] at hd
      rcases hd with h | h
      · omega
      · exact ih _ _ h

/-- The decimal digit character for `d` (ASCII 48 + d). -/
def digitToChar (d : Nat) : Char := Char.ofNat (48 + d)

/-- Inverse of `digitToChar` on decimal digits; `none` on any non-digit char. -/
def charToDigit (c : Char) : Option Nat :=
  if 48 ≤ c.toNat ∧ c.toNat ≤ 57 then some (c.toNat - 48) else none

theorem charToDigit_digitToChar (d : Nat) (hd : d < 10) :
    charToDigit (digitToChar d) = some d := by
  interval_cases d <;> decide

/-- A character is a decimal digit char. -/
def isDigitCh (c : Char) : Prop := 48 ≤ c.toNat ∧ c.toNat ≤ 57

theorem isDigitCh_digitToChar (d : Nat) (hd : d < 10) : isDigitCh (digitToChar d) := by
  interval_cases d <;> exact ⟨by decide, by decide⟩

theorem isDigitCh_ne (c : Char) (hc : isDigitCh c) (c' : Char)
    (hc' : c'.toNat < 48 ∨ 57 < c'.toNat) : c ≠ c' := by
  intro h
  subst h
  rcases hc with ⟨h1, h2⟩
  omega

/-- Parse a little-endian run of decimal digit characters. -/
def parseDigits : List Char → Option Nat
  | [] => some 0
  | c :: cs =>
    match charToDigit c, parseDigits cs with
    | some d, some rest => some (d + 10 * rest)
    | _, _ => none

theorem parseDigits_map_digitToChar (ds : List Nat) (h : ∀ d ∈ ds, d < 10) :
    parseDigits (ds.map digitToChar) = some (digitsToNatLE ds) := by
  induction ds with
  | nil => rfl
  | cons d ds ih =>
    have hd : d < 10 := h d (List.mem_cons_self d ds)
    have hds : ∀ x ∈ ds, x < 10 := fun x hx => h x (List.mem_cons_of_mem d hx)
    simp only [List.map, parseDigits, charToDigit_digitToChar d hd, ih hds, digitsToNatLE]

/-- The decimal character rendering of `n` (little-endian; `0` renders empty). -/
def renderNat (n : Nat) : List Char := (natToDigitsLE n).map digitToChar

theorem parseDigits_renderNat (n : Nat) : parseDigits (renderNat n) = some n := by
  have h := parseDigits_map_digitToChar (natToDigitsLE n)
    (fun d hd => natToDigitsAux_lt_ten n n d hd)
  rw [renderNat, h, digitsToNatLE_natToDigitsLE]

theorem renderNat_isDigitCh (n : Nat) : ∀ c ∈ renderNat n, isDigitCh c := by
  intro c hc
  simp only [renderNat, List.mem_map] at hc
  obtain ⟨d, hd, rfl⟩ := hc
  exact isDigitCh_digitToChar d (natToDigitsAux_lt_ten n n d hd)

/-! ### Splitting a character list on a separator -/

/-- Split a list of characters at every occurrence of `sep`
(the model of the segment structure of a compact JWT and of the
field/character separators inside the payload segment). -/
def splitOnChar (sep : Char) : List Char → List (List Char)
  | [] => [[]]
  | c :: cs =>
    if c = sep then [] :: splitOnChar sep cs
    else
      match splitOnChar sep cs with
      | [] => [[c]]
      | seg :: rest => (c :: seg) :: rest

theorem splitOnChar_ne_nil (sep : Char) (l : List Char) : splitOnChar sep l ≠ [] := by
  induction l with
  | nil => simp [splitOnChar]
  | cons c cs ih =>
    simp only [splitOnChar]
    split
    · simp
    · match h : splitOnChar sep cs with
      | [] => simp
      | seg :: rest => simp

theorem splitOnChar_sep_cons (sep : Char) (rest : List Char) :
    splitOnChar sep (sep :: rest) = [] :: splitOnChar sep rest := by
  simp [splitOnChar]

/-- Prepending separator-free characters extends the first segment. -/
theorem splitOnChar_append_free (sep : Char) (a rest : List Char) (h : sep ∉ a) :
    splitOnChar sep (a ++ rest) =
      (a ++ (splitOnChar sep rest).headI) :: (splitOnChar sep rest).tail := by
  induction a with
  | nil =>
    simp only [List.nil_append]
    match hr : splitOnChar sep rest with
    | [] => exact absurd hr (splitOnChar_ne_nil sep rest)
    | seg :: segs => simp
  | cons c cs ih =>
    have hc : c ≠ sep := fun hcs => h (hcs ▸ List.mem_cons_self c cs)
    have hcs' : sep ∉ cs := fun hm => h (List.mem_cons_of_mem c hm)
    simp only [List.cons_append, splitOnChar, if_neg hc, List.append_eq, ih hcs']

theorem splitOnChar_free (sep : Char) (a : List Char) (h : sep ∉ a) :
    splitOnChar sep a = [a] := by
  have := splitOnChar_append_free sep a [] h
  simpa [splitOnChar] using this

theorem splitOnChar_append_sep (sep : Char) (a rest : List Char) (h : sep ∉ a) :
    splitOnChar sep (a ++ sep :: rest) = a :: splitOnChar sep rest := by
  rw [splitOnChar_append_free sep a _ h, splitOnChar_sep_cons]
  simp

/-! ### Serialization of strings, integers and optional values
(the model of the JSON + base64url encoding of the token payload:
an injective rendering into a dot-free character alphabet). -/

/-- Render a character list as `'c'`-prefixed decimal character codes. -/
def encChars (l : List Char) : List Char :=
  (l.map fun ch => 'c' :: renderNat ch.toNat).flatten

/-- Map a fallible decoder over a list, failing if any element fails. -/
def optMap (f : α → Option β) : List α → Option (List β)
  | [] => some []
  | a :: l => (f a).bind fun b => (optMap f l).map fun bs => b :: bs

theorem optMap_map (f : α → Option β) (g : β → α) (l : List β)
    (h : ∀ b ∈ l, f (g b) = some b) : optMap f (l.map g) = some l := by
  induction l with
  | nil => rfl
  | cons b bs ih =>
    simp only [List.map, optMap, h b (List.mem_cons_self b bs),
      ih fun x hx => h x (List.mem_cons_of_mem b hx), Option.some_bind, Option.map_some']

/-- Inverse of `encChars`. -/
def decChars (l : List Char) : Option (List Char) :=
  match splitOnChar 'c' l with
  | [] => none
  | first :: parts =>
    if first = [] then (optMap parseDigits parts).map fun codes => codes.map Char.ofNat
    else none

theorem sep_not_mem_renderNat (n : Nat) (sep : Char)
    (hsep : sep.toNat < 48 ∨ 57 < sep.toNat) : sep ∉ renderNat n := by
  intro hmem
  exact isDigitCh_ne sep (renderNat_isDigitCh n sep hmem) sep hsep rfl

theorem splitOnChar_flatten (sep : Char) (f : α → List Char) (l : List α)
    (h : ∀ x ∈ l, sep ∉ f x) :
    splitOnChar sep ((l.map fun x => sep :: f x).flatten) = [] :: l.map f := by
  induction l with
  | nil => rfl
  | cons x xs ih =>
    have hx : sep ∉ f x := h x (List.mem_cons_self x xs)
    have hxs : ∀ y ∈ xs, sep ∉ f y := fun y hy => h y (List.mem_cons_of_mem x hy)
    simp only [List.map, List.flatten, List.cons_append, splitOnChar_sep_cons,
      splitOnChar_append_free sep (f x) _ hx, ih hxs]
    simp

theorem decChars_encChars (l : List Char) : decChars (encChars l) = some l := by
  have hfree : ∀ x ∈ l, 'c' ∉ renderNat x.toNat := fun x _ =>
    sep_not_mem_renderNat _ 'c' (Or.inr (by decide))
  have hsplit := splitOnChar_flatten 'c' (fun ch => renderNat ch.toNat) l hfree
  have hmap : l.map (fun ch => renderNat ch.toNat) = (l.map Char.toNat).map renderNat := by
    simp [List.map_map, Function.comp]
  rw [decChars, encChars, hsplit, hmap]
  simp only [if_pos rfl]
  rw [optMap_map parseDigits renderNat (l.map Char.toNat)
    (fun b _ => parseDigits_renderNat b)]
  simp only [Option.map_some', List.map_map]
  rw [show (Char.ofNat ∘ Char.toNat) = id from funext fun c => Char.ofNat_toNat c,
    List.map_id]
  simp

/-- Render an integer: nonnegative values as digits, negatives with an `'x'` mark. -/
def encInt : Int → List Char
  | .ofNat n => renderNat n
  | .negSucc n => 'x' :: renderNat n

/-- Inverse of `encInt`. -/
def decInt (l : List Char) : Option Int :=
  match l with
  | [] => some (Int.ofNat 0)
  | c :: rest =>
    if c = 'x' then (parseDigits rest).map Int.negSucc
    else (parseDigits (c :: rest)).map Int.ofNat

theorem decInt_encInt (i : Int) : decInt (encInt i) = some i := by
  cases i with
  | ofNat n =>
    cases n with
    | zero => rfl
    | succ m =>
      have hne : digitToChar ((m + 1) % 10) ≠ 'x' :=
        isDigitCh_ne _ (isDigitCh_digitToChar _ (by omega)) 'x' (Or.inr (by decide))
      have hrend : renderNat (m + 1) =
          digitToChar ((m + 1) % 10) :: (natToDigitsAux m ((m + 1) / 10)).map digitToChar := rfl
      have hparse := parseDigits_renderNat (m + 1)
      rw [hrend] at hparse
      simp only [encInt, decInt, hrend, if_neg hne, hparse, Option.map_some']
  | negSucc n =>
    simp [encInt, decInt, parseDigits_renderNat n]

/-- Render an optional payload field: `'n'` for null/absent, `'s'`-prefixed otherwise. -/
def encOptChars : Option (List Char) → List Char
  | none => ['n']
  | some l => 's' :: l

/-- Inverse of `encOptChars`, given a decoder for the wrapped value. -/
def decOptWith (dec : List Char → Option α) (l : List Char) : Option (Option α) :=
  if l = ['n'] then some none
  else
    match l with
    | c :: rest => if c = 's' then (dec rest).map some else none
    | [] => none

theorem decOptWith_encOptChars (dec : List Char → Option α) (enc : α → List Char)
    (o : Option α) (h : ∀ a, dec (enc a) = some a) :
    decOptWith dec (encOptChars (o.map enc)) = some o := by
  cases o with
  | none => rfl
  | some a =>
    have hne : ('s' :: enc a) ≠ ['n'] := by
      intro hcontra
      have : 's' = 'n' := (List.cons.injEq _ _ _ _ ▸ hcontra : _) |>.1
      exact absurd this (by decide)
    simp [encOptChars, decOptWith, if_neg hne, h a]

/-! ### JWT model (`jwt.encode` / `jwt.decode`, algorithm HS256)

A token is a string of three dot-separated segments: a fixed header segment,
the serialized claims payload, and the signature.  `jwt.decode` checks the
header, recomputes the signature over `header.payload`, checks the `exp`
claim against the verifier's clock, and raises `InvalidTokenError` (modelled
as `none`) on any structural, signature, or expiry failure. -/

/-- The claims dictionary carried by a token, as the source builds it:
`sub` (subject username), `user_id`, `exp` (absolute expiry instant, seconds),
and the optional `type` marker set to "refresh" on refresh tokens. -/
structure JwtPayload where
  sub : Option String
  user_id : Option Int
  exp : Option Nat
  typ : Option String
deriving DecidableEq

/-- Serialize a string field. -/
def encStr (s : String) : List Char := encChars s.data

/-- Inverse of `encStr`. -/
def decStrChars (l : List Char) : Option String :=
  (decChars l).map fun cs => ⟨cs⟩

theorem decStrChars_encStr (s : String) : decStrChars (encStr s) = some s := by
  simp [decStrChars, encStr, decChars_encChars]

/-- Serialize the claims payload into the payload segment (four `'f'`-separated
optional fields over a dot-free alphabet). -/
def encPayload (p : JwtPayload) : List Char :=
  encOptChars (p.sub.map encStr) ++ 'f' ::
  (encOptChars (p.user_id.map encInt) ++ 'f' ::
  (encOptChars (p.exp.map renderNat) ++ 'f' ::
  encOptChars (p.typ.map encStr)))

/-- Inverse of `encPayload`; `none` on any malformed payload segment. -/
def decPayload (l : List Char) : Option JwtPayload :=
  match splitOnChar 'f' l with
  | [a, b, c, d] =>
    match decOptWith decStrChars a, decOptWith decInt b,
        decOptWith parseDigits c, decOptWith decStrChars d with
    | some su, some ui, some ex, some ty => some ⟨su, ui, ex, ty⟩
    | _, _, _, _ => none
  | _ => none

/-- Characters that may occur in a serialized payload field. -/
def fieldAlphabet (c : Char) : Prop :=
  isDigitCh c ∨ c = 'c' ∨ c = 'x' ∨ c = 'n' ∨ c = 's'

theorem fieldAlphabet_ne (c : Char) (hc : fieldAlphabet c) (c' : Char)
    (h1 : c'.toNat < 48 ∨ 57 < c'.toNat) (h2 : c' ≠ 'c') (h3 : c' ≠ 'x')
    (h4 : c' ≠ 'n') (h5 : c' ≠ 's') : c ≠ c' := by
  rcases hc with h | h | h | h | h
  · exact isDigitCh_ne c h c' h1
  · subst h; exact fun hh => h2 hh.symm
  · subst h; exact fun hh => h3 hh.symm
  · subst h; exact fun hh => h4 hh.symm
  · subst h; exact fun hh => h5 hh.symm

theorem encChars_alphabet (l : List Char) : ∀ c ∈ encChars l, isDigitCh c ∨ c = 'c' := by
  intro c hc
  simp only [encChars, List.mem_flatten, List.mem_map] at hc
  obtain ⟨seg, ⟨x, hx, rfl⟩, hcseg⟩ := hc
  rcases List.mem_cons.mp hcseg with rfl | hmem
  · exact Or.inr rfl
  · exact Or.inl (renderNat_isDigitCh _ c hmem)

theorem encOptChars_str_alphabet (o : Option String) :
    ∀ c ∈ encOptChars (o.map encStr), fieldAlphabet c := by
  intro c hc
  cases o with
  | none =>
    simp only [Option.map_none', encOptChars, List.mem_singleton] at hc
    exact Or.inr (Or.inr (Or.inr (Or.inl hc)))
  | some s =>
    simp only [Option.map_some', encOptChars, List.mem_cons] at hc
    rcases hc with rfl | hmem
    · exact Or.inr (Or.inr (Or.inr (Or.inr rfl)))
    · rcases encChars_alphabet s.data c hmem with h | h
      · exact Or.inl h
      · exact Or.inr (Or.inl h)

theorem encOptChars_int_alphabet (o : Option Int) :
    ∀ c ∈ encOptChars (o.map encInt), fieldAlphabet c := by
  intro c hc
  cases o with
  | none =>
    simp only [Option.map_none', encOptChars, List.mem_singleton] at hc
    exact Or.inr (Or.inr (Or.inr (Or.inl hc)))
  | some i =>
    simp only [Option.map_some', encOptChars, List.mem_cons] at hc
    rcases hc with rfl | hmem
    · exact Or.inr (Or.inr (Or.inr (Or.inr rfl)))
    · cases i with
      | ofNat n => exact Or.inl (renderNat_isDigitCh n c hmem)
      | negSucc n =>
        rcases List.mem_cons.mp hmem with rfl | hmem'
        · exact Or.inr (Or.inr (Or.inl rfl))
        · exact Or.inl (renderNat_isDigitCh n c hmem')

theorem encOptChars_nat_alphabet (o : Option Nat) :
    ∀ c ∈ encOptChars (o.map renderNat), fieldAlphabet c := by
  intro c hc
  cases o with
  | none =>
    simp only [Option.map_none', encOptChars, List.mem_singleton] at hc
    exact Or.inr (Or.inr (Or.inr (Or.inl hc)))
  | some n =>
    simp only [Option.map_some', encOptChars, List.mem_cons] at hc
    rcases hc with rfl | hmem
    · exact Or.inr (Or.inr (Or.inr (Or.inr rfl)))
    · exact Or.inl (renderNat_isDigitCh n c hmem)

theorem encPayload_alphabet (p : JwtPayload) :
    ∀ c ∈ encPayload p, fieldAlphabet c ∨ c = 'f' := by
  intro c hc
  simp only [encPayload, List.mem_append, List.mem_cons] at hc
  rcases hc with h | rfl | h | rfl | h | rfl | h
  · exact Or.inl (encOptChars_str_alphabet p.sub c h)
  · exact Or.inr rfl
  · exact Or.inl (encOptChars_int_alphabet p.user_id c h)
  · exact Or.inr rfl
  · exact Or.inl (encOptChars_nat_alphabet p.exp c h)
  · exact Or.inr rfl
  · exact Or.inl (encOptChars_str_alphabet p.typ c h)

theorem fieldAlphabet_not_mem_f {l : List Char}
    (h : ∀ c ∈ l, fieldAlphabet c) : 'f' ∉ l := fun hmem =>
  fieldAlphabet_ne 'f' (h 'f' hmem) 'f' (Or.inr (by decide)) (by decide) (by decide)
    (by decide) (by decide) rfl

theorem encPayload_not_mem_dot (p : JwtPayload) : '.' ∉ encPayload p := by
  intro hmem
  rcases encPayload_alphabet p '.' hmem with h | h
  · exact fieldAlphabet_ne '.' h '.' (Or.inl (by decide)) (by decide) (by decide)
      (by decide) (by decide) rfl
  · exact absurd h (by decide)

theorem decPayload_encPayload (p : JwtPayload) : decPayload (encPayload p) = some p := by
  have hsplit : splitOnChar 'f' (encPayload p) =
      [encOptChars (p.sub.map encStr), encOptChars (p.user_id.map encInt),
       encOptChars (p.exp.map renderNat), encOptChars (p.typ.map encStr)] := by
    rw [encPayload,
      splitOnChar_append_sep 'f' _ _ (fieldAlphabet_not_mem_f (encOptChars_str_alphabet p.sub)),
      splitOnChar_append_sep 'f' _ _ (fieldAlphabet_not_mem_f (encOptChars_int_alphabet p.user_id)),
      splitOnChar_append_sep 'f' _ _ (fieldAlphabet_not_mem_f (encOptChars_nat_alphabet p.exp)),
      splitOnChar_free 'f' _ (fieldAlphabet_not_mem_f (encOptChars_str_alphabet p.typ))]
  rw [decPayload, hsplit]
  simp only [decOptWith_encOptChars decStrChars encStr p.sub decStrChars_encStr,
    decOptWith_encOptChars decInt encInt p.user_id decInt_encInt,
    decOptWith_encOptChars parseDigits renderNat p.exp parseDigits_renderNat,
    decOptWith_encOptChars decStrChars encStr p.typ decStrChars_encStr]

/-- The fixed header segment (model of the base64url JOSE header for HS256). -/
def hdrChars : List Char := ['H', 'S', '2', '5', '6']

/-- Idealized HMAC-SHA256 over the signing input: a deterministic tag over the
key and message, rendered in a dot-free alphabet.  The code relies only on the
signature being a function of `(key, message)` recomputed and compared by the
verifier. -/
def macFn (key : String) (msg : List Char) : List Char :=
  'm' :: (encChars key.data ++ 'k' :: encChars msg)

theorem macFn_not_mem_dot (key : String) (msg : List Char) : '.' ∉ macFn key msg := by
  intro hmem
  simp only [macFn, List.mem_cons, List.mem_append] at hmem
  have hdig : ∀ l, '.' ∈ encChars l → False := by
    intro l hl
    rcases encChars_alphabet l '.' hl with h | h
    · exact isDigitCh_ne '.' h '.' (Or.inl (by decide)) rfl
    · exact absurd h (by decide)
  rcases hmem with h | h | h | h
  · exact absurd h (by decide)
  · exact hdig _ h
  · exact absurd h (by decide)
  · exact hdig _ h

theorem hdrChars_not_mem_dot : '.' ∉ hdrChars := by decide

/-- `jwt.encode(payload, key, algorithm="HS256")`. -/
def jwt_encode (p : JwtPayload) (key : String) : String :=
  ⟨(hdrChars ++ '.' :: encPayload p) ++ '.' :: macFn key (hdrChars ++ '.' :: encPayload p)⟩

/-- `jwt.decode(token, key, algorithms=["HS256"])` at clock instant `now`,
with `InvalidTokenError` modelled as `none`.  The `exp` claim, when present,
invalidates the token from the instant `exp` onward (pyjwt rejects when
`exp <= now`). -/
def jwt_decode (token : String) (key : String) (now : Nat) : Option JwtPayload :=
  match splitOnChar '.' token.data with
  | [h, ps, sg] =>
    if h = hdrChars then
      if sg = macFn key (hdrChars ++ '.' :: ps) then
        match decPayload ps with
        | none => none
        | some p =>
          match p.exp with
          | some e => if e ≤ now then none else some p
          | none => some p
      else none
    else none
  | _ => none

theorem splitOnChar_jwt_encode (p : JwtPayload) (key : String) :
    splitOnChar '.' (jwt_encode p key).data =
      [hdrChars, encPayload p, macFn key (hdrChars ++ '.' :: encPayload p)] := by
  show splitOnChar '.'
      ((hdrChars ++ '.' :: encPayload p) ++ '.' :: macFn key (hdrChars ++ '.' :: encPayload p)) = _
  rw [List.append_assoc, List.cons_append,
    splitOnChar_append_sep '.' hdrChars _ hdrChars_not_mem_dot,
    splitOnChar_append_sep '.' _ _ (encPayload_not_mem_dot p),
    splitOnChar_free '.' _ (macFn_not_mem_dot key _)]

/-- Round trip: decoding a token we encoded succeeds exactly while unexpired. -/
theorem jwt_decode_encode (p : JwtPayload) (key : String) (now : Nat) :
    jwt_decode (jwt_encode p key) key now =
      match p.exp with
      | some e => if e ≤ now then none else some p
      | none => some p := by
  rw [jwt_decode, splitOnChar_jwt_encode]
  simp only [if_pos rfl, decPayload_encPayload, if_true]

/-! ### bcrypt model (`models/user.py`)

`bcrypt.hashpw(plain, gensalt())` is modelled as an idealized collision-free
salted digest: the stored verifier determines the salt, `checkpw` recomputes
the digest with the stored salt and compares.  The salt is an explicit
parameter standing for the randomness of `gensalt()`. -/

/-- An injective code of a list of naturals (towards the idealized digest). -/
def encListNat : List Nat → Nat
  | [] => 0
  | a :: l => Nat.pair a (encListNat l) + 1

theorem encListNat_injective : Function.Injective encListNat := by
  intro l1
  induction l1 with
  | nil =>
    intro l2 h
    cases l2 with
    | nil => rfl
    | cons b bs => simp [encListNat] at h
  | cons a as ih =>
    intro l2 h
    cases l2 with
    | nil => simp [encListNat] at h
    | cons b bs =>
      simp only [encListNat, Nat.add_right_cancel_iff] at h
      have h2 := congrArg Nat.unpair h
      rw [Nat.unpair_pair, Nat.unpair_pair] at h2
      obtain ⟨rfl, htail⟩ := Prod.mk.injEq .. ▸ h2
      rw [ih htail]

theorem char_toNat_injective : Function.Injective Char.toNat := by
  intro a b h
  have := congrArg Char.ofNat h
  rwa [Char.ofNat_toNat, Char.ofNat_toNat] at this

/-- An injective numeric code of a string. -/
def strCode (s : String) : Nat := encListNat (s.data.map Char.toNat)

theorem strCode_injective : Function.Injective strCode := by
  intro s t h
  have hdata : s.data = t.data :=
    List.map_injective_iff.mpr char_toNat_injective (encListNat_injective h)
  cases s
  cases t
  exact congrArg String.mk hdata

/-- The idealized bcrypt digest of `password` under `salt`. -/
def bcryptDigest (salt : Nat) (password : String) : Nat :=
  Nat.pair salt (strCode password)

theorem bcryptDigest_inj (salt : Nat) (p q : String)
    (h : bcryptDigest salt p = bcryptDigest salt q) : p = q := by
  have h2 := congrArg Nat.unpair h
  rw [bcryptDigest, bcryptDigest, Nat.unpair_pair, Nat.unpair_pair] at h2
  exact strCode_injective (congrArg Prod.snd h2)

/-- The stored password verifier: salt plus salted digest, never the plaintext. -/
structure BcryptHash where
  salt : Nat
  digest : Nat
deriving DecidableEq

/-- `bcrypt.hashpw(password.encode(), salt)`. -/
def bcrypt_hashpw (password : String) (salt : Nat) : BcryptHash :=
  ⟨salt, bcryptDigest salt password⟩

/-- `bcrypt.checkpw(password.encode(), stored.encode())`: recompute with the
salt embedded in the stored hash and compare; returns a boolean, never throws. -/
def bcrypt_checkpw (password : String) (stored : BcryptHash) : Bool :=
  bcryptDigest stored.salt password == stored.digest

theorem bcrypt_checkpw_hashpw_iff (p q : String) (salt : Nat) :
    bcrypt_checkpw p (bcrypt_hashpw q salt) = true ↔ p = q := by
  simp only [bcrypt_checkpw, bcrypt_hashpw, beq_iff_eq]
  exact ⟨fun h => bcryptDigest_inj salt p q h, fun h => h ▸ rfl⟩

/-! ### The `users` table row (`models/user.py`) -/

/-- One row of the `users` table.  `weight`/`height` are FLOAT columns on which
the code does no arithmetic, modelled as `Rat`; `created_at` is an instant in
seconds.  Column defaults: `is_active = True`, nullable profile fields. -/
structure User where
  id : Int
  username : String
  email : String
  hashed_password : BcryptHash
  full_name : Option String := none
  age : Option Int := none
  weight : Option Rat := none
  height : Option Rat := none
  activity_level : Option String := none
  daily_calorie_goal : Option Int := none
  created_at : Nat := 0
  is_active : Bool := true
deriving DecidableEq

/-- `User.verify_password`. -/
def User.verify_password (u : User) (password : String) : Bool :=
  bcrypt_checkpw password u.hashed_password

/-- `User.set_password` (`salt` stands for the fresh `bcrypt.gensalt()`). -/
def User.set_password (u : User) (password : String) (salt : Nat) : User :=
  { u with hashed_password := bcrypt_hashpw password salt }

/-! ### HTTP errors and the auth service (`services/auth_service.py`) -/

/-- `fastapi.HTTPException` as raised by this code: status code and detail. -/
structure HTTPError where
  status_code : Nat
  detail : String
deriving DecidableEq

/-- `settings.ACCESS_TOKEN_EXPIRE_MINUTES` (`utils/config.py`). -/
def ACCESS_TOKEN_EXPIRE_MINUTES : Nat := 30

/-- `AuthService.create_access_token(data, expires_delta)`: copy the claims,
set `exp` to `utcnow() + expires_delta` (default
`ACCESS_TOKEN_EXPIRE_MINUTES` minutes when the delta is absent — or zero,
since `timedelta(0)` is falsy), and sign with the process key.  `now` and the
delta are in seconds. -/
def create_access_token (data : JwtPayload) (key : String) (now : Nat)
    (expires_delta : Option Nat) : String :=
  let expire : Nat :=
    match expires_delta with
    | some d => if d = 0 then now + ACCESS_TOKEN_EXPIRE_MINUTES * 60 else now + d
    | none => now + ACCESS_TOKEN_EXPIRE_MINUTES * 60
  jwt_encode { data with exp := some expire } key

/-- The result of a successful token verification. -/
structure TokenData where
  username : String
  user_id : Int
deriving DecidableEq

/-- `AuthService.verify_token`: decode the token (any `InvalidTokenError`
is caught and becomes `none`), then require both the `sub` and `user_id`
claims; every failure returns the same `none`. -/
def verify_token (key : String) (now : Nat) (token : String) : Option TokenData :=
  match jwt_decode token key now with
  | none => none
  | some payload =>
    match payload.sub, payload.user_id with
    | some username, some uid => some ⟨username, uid⟩
    | _, _ => none

/-- The single generic 401 raised by `AuthService.get_current_user`. -/
def credentials_exception : HTTPError := ⟨401, "Could not validate credentials"⟩

/-- `AuthService.get_current_user`: verify the bearer token, then resolve the
subject username against the user table (`filter(...).first()`); a missing row
and a deactivated row raise the same `credentials_exception` as a bad token. -/
def get_current_user (key : String) (now : Nat) (token : String) (db : List User) :
    Except HTTPError User :=
  match verify_token key now token with
  | none => .error credentials_exception
  | some token_data =>
    match db.find? fun u => u.username == token_data.username with
    | none => .error credentials_exception
    | some user => if user.is_active then .ok user else .error credentials_exception

/-- ASCII lowercasing of one character (model of `str.lower()`). -/
def lowerChar (c : Char) : Char :=
  if 65 ≤ c.toNat ∧ c.toNat ≤ 90 then Char.ofNat (c.toNat + 32) else c

/-- ASCII lowercasing of a string (model of `str.lower()`). -/
def lowerStr (s : String) : String := ⟨s.data.map lowerChar⟩

/-- FastAPI `OAuth2PasswordBearer.__call__` on the request's authorization
header, given as `(scheme, credentials)` when present: an absent header or a
non-bearer scheme is rejected with 401 "Not authenticated" by the framework
dependency before the route body runs (`auto_error` defaults to true). -/
def oauth2_scheme_call (authorization : Option (String × String)) :
    Except HTTPError String :=
  match authorization with
  | none => .error ⟨401, "Not authenticated"⟩
  | some (scheme, credentials) =>
    if lowerStr scheme = "bearer" then .ok credentials
    else .error ⟨401, "Not authenticated"⟩

/-- The request-level session guard: bearer extraction, then `get_current_user`. -/
def authenticate (key : String) (now : Nat)
    (authorization : Option (String × String)) (db : List User) :
    Except HTTPError User :=
  match oauth2_scheme_call authorization with
  | .error e => .error e
  | .ok token => get_current_user key now token db

/-- The dictionary returned by `AuthService.create_user_tokens`. -/
structure UserTokens where
  access_token : String
  refresh_token : String
  token_type : String
  expires_in : Nat
deriving DecidableEq

/-- `AuthService.create_user_tokens`: a 30-minute access token and a 7-day
refresh token (marked `type: "refresh"`), both bound to the username and id. -/
def create_user_tokens (user : User) (key : String) (now : Nat) : UserTokens where
  access_token := create_access_token ⟨some user.username, some user.id, none, none⟩
    key now (some (ACCESS_TOKEN_EXPIRE_MINUTES * 60))
  refresh_token := create_access_token ⟨some user.username, some user.id, none, some "refresh"⟩
    key now (some (7 * 86400))
  token_type := "bearer"
  expires_in := ACCESS_TOKEN_EXPIRE_MINUTES * 60

/-! ### Request bodies (pydantic models in `routers/auth.py`) -/

/-- A raw JSON field: absent from the body, explicitly null, or a value. -/
inductive JsonField (α : Type) where
  | absent
  | null
  | val (a : α)
deriving DecidableEq

/-- The validated `UserCreate` body: `username`, `email`, `password` are
required (`str`); the rest are `Optional`, with `activity_level` and
`daily_calorie_goal` carrying non-null defaults. -/
structure UserCreate where
  username : String
  email : String
  password : String
  full_name : Option String
  age : Option Int
  weight : Option Rat
  height : Option Rat
  activity_level : Option String
  daily_calorie_goal : Option Int
deriving DecidableEq

/-- A raw JSON body for `UserCreate`, before pydantic validation. -/
structure RawUserCreate where
  username : JsonField String
  email : JsonField String
  password : JsonField String
  full_name : JsonField String
  age : JsonField Int
  weight : JsonField Rat
  height : JsonField Rat
  activity_level : JsonField String
  daily_calorie_goal : JsonField Int
deriving DecidableEq

/-- A required field (`x: str`): absent and explicit null fail validation. -/
def reqField : JsonField α → Option α
  | .val a => some a
  | _ => none

/-- `x: Optional[T] = None`: absent and null both validate to `None`. -/
def optField : JsonField α → Option (Option α)
  | .absent => some none
  | .null => some none
  | .val a => some (some a)

/-- `x: Optional[T] = d` with a non-null default: an absent field takes the
default, an explicit null stays null. -/
def optFieldD (d : α) : JsonField α → Option (Option α)
  | .absent => some (some d)
  | .null => some none
  | .val a => some (some a)

/-- pydantic validation of a `UserCreate` body; `none` is a 422 response. -/
def parseUserCreate (r : RawUserCreate) : Option UserCreate :=
  (reqField r.username).bind fun u =>
  (reqField r.email).bind fun e =>
  (reqField r.password).bind fun p =>
  (optField r.full_name).bind fun fn =>
  (optField r.age).bind fun ag =>
  (optField r.weight).bind fun w =>
  (optField r.height).bind fun h =>
  (optFieldD "moderate" r.activity_level).bind fun al =>
  (optFieldD 2000 r.daily_calorie_goal).map fun dg =>
  ⟨u, e, p, fn, ag, w, h, al, dg⟩

/-- The public profile response (`UserResponse`): everything but the hash. -/
structure UserResponse where
  id : Int
  username : String
  email : String
  full_name : Option String
  age : Option Int
  weight : Option Rat
  height : Option Rat
  activity_level : Option String
  daily_calorie_goal : Option Int
  is_active : Bool
  created_at : Nat
deriving DecidableEq

/-- Serialization of a row through `UserResponse` (`from_attributes`). -/
def toUserResponse (u : User) : UserResponse where
  id := u.id
  username := u.username
  email := u.email
  full_name := u.full_name
  age := u.age
  weight := u.weight
  height := u.height
  activity_level := u.activity_level
  daily_calorie_goal := u.daily_calorie_goal
  is_active := u.is_active
  created_at := u.created_at

/-- The login response body (`Token`). -/
structure Token where
  access_token : String
  token_type : String
  user_id : Int
  username : String
deriving DecidableEq

/-- The `PasswordChange` body. -/
structure PasswordChange where
  current_password : String
  new_password : String
deriving DecidableEq

/-! ### Account endpoints (`routers/auth.py`) -/

/-- `POST register`.  The store state is passed twice: `checkDb` is what the
two pre-insert existence queries see; `insertDb` is what the store holds when
the INSERT commits (they differ only when a concurrent registration lands in
the check-then-insert window; sequential callers pass the same list).  An
insert-time UNIQUE violation raises `IntegrityError`, which the route's
`except Exception` turns into a rollback plus a 500.  Returns the outcome and
the resulting table. -/
def register_user (user_data : UserCreate) (checkDb insertDb : List User)
    (newId : Int) (salt : Nat) (now : Nat) : Except HTTPError User × List User :=
  if (checkDb.find? fun u => u.username == user_data.username).isSome then
    (.error ⟨400, "Username already registered"⟩, insertDb)
  else if (checkDb.find? fun u => u.email == user_data.email).isSome then
    (.error ⟨400, "Email already registered"⟩, insertDb)
  else
    let db_user : User :=
      { id := newId
        username := user_data.username
        email := user_data.email
        hashed_password := bcrypt_hashpw user_data.password salt
        full_name := user_data.full_name
        age := user_data.age
        weight := user_data.weight
        height := user_data.height
        activity_level := user_data.activity_level
        daily_calorie_goal := user_data.daily_calorie_goal
        created_at := now
        is_active := true }
    if insertDb.any fun u => u.username == user_data.username || u.email == user_data.email then
      (.error ⟨500, "Failed to create user: UNIQUE constraint failed"⟩, insertDb)
    else
      (.ok db_user, insertDb ++ [db_user])

/-- `POST login`: look up by username, verify the password (one merged check,
one error), reject deactivated accounts, then issue a default-TTL access token. -/
def login_user (username password : String) (db : List User) (key : String) (now : Nat) :
    Except HTTPError Token :=
  match db.find? fun u => u.username == username with
  | none => .error ⟨401, "Incorrect username or password"⟩
  | some user =>
    if ¬ user.verify_password password then
      .error ⟨401, "Incorrect username or password"⟩
    else if ¬ user.is_active then
      .error ⟨400, "Inactive user"⟩
    else
      .ok { access_token :=
              create_access_token ⟨some user.username, some user.id, none, none⟩ key now none
            token_type := "bearer"
            user_id := user.id
            username := user.username }

/-- The body of `PUT me` after validation: copy each non-None field onto the
current row; a non-empty `password` (Python truthiness) is re-hashed. -/
def update_user_profile (user_update : UserCreate) (current_user : User) (salt : Nat) : User :=
  let cu := match user_update.full_name with
    | some v => { current_user with full_name := some v }
    | none => current_user
  let cu := match user_update.age with
    | some v => { cu with age := some v }
    | none => cu
  let cu := match user_update.weight with
    | some v => { cu with weight := some v }
    | none => cu
  let cu := match user_update.height with
    | some v => { cu with height := some v }
    | none => cu
  let cu := match user_update.activity_level with
    | some v => { cu with activity_level := some v }
    | none => cu
  let cu := match user_update.daily_calorie_goal with
    | some v => { cu with daily_calorie_goal := some v }
    | none => cu
  if user_update.password ≠ "" then cu.set_password user_update.password salt else cu

/-- `PUT me` including body validation: a body failing `UserCreate` validation
never reaches the route (FastAPI answers 422). -/
def put_me (body : RawUserCreate) (current_user : User) (salt : Nat) :
    Except HTTPError User :=
  match parseUserCreate body with
  | none => .error ⟨422, "Unprocessable Entity"⟩
  | some user_update => .ok (update_user_profile user_update current_user salt)

/-- `PUT change-password`: returns the error (if any) and the resulting stored
row — unchanged on every failure path, re-hashed on success. -/
def change_password (password_data : PasswordChange) (current_user : User) (salt : Nat) :
    Option HTTPError × User :=
  if ¬ current_user.verify_password password_data.current_password then
    (some ⟨400, "Current password is incorrect"⟩, current_user)
  else if current_user.verify_password password_data.new_password then
    (some ⟨400, "New password must be different from current password"⟩, current_user)
  else if password_data.new_password.length < 8 then
    (some ⟨400, "New password must be at least 8 characters long"⟩, current_user)
  else
    (none, current_user.set_password password_data.new_password salt)

/-- `DELETE delete-account`: soft delete — only the active flag flips. -/
def delete_user_account (current_user : User) : User :=
  { current_user with is_active := false }

/-- `GET users`: any authenticated caller; returns the `skip`/`limit` page of
the whole user table (active and inactive rows alike) as public profiles. -/
def get_all_users (key : String) (now : Nat) (token : String) (skip limit : Nat)
    (db : List User) : Except HTTPError (List UserResponse) :=
  match get_current_user key now token db with
  | .error e => .error e
  | .ok _ => .ok (((db.drop skip).take limit).map toUserResponse)

/-! ### Supporting lemmas -/

/-- The expiry instant `create_access_token` embeds for a given delta. -/
def accessExpiry (now : Nat) (delta : Option Nat) : Nat :=
  match delta with
  | some d => if d = 0 then now + ACCESS_TOKEN_EXPIRE_MINUTES * 60 else now + d
  | none => now + ACCESS_TOKEN_EXPIRE_MINUTES * 60

theorem create_access_token_eq (data : JwtPayload) (key : String) (now : Nat)
    (delta : Option Nat) :
    create_access_token data key now delta =
      jwt_encode { data with exp := some (accessExpiry now delta) } key := rfl

theorem accessExpiry_none (now : Nat) : accessExpiry now none = now + 30 * 60 := by
  simp [accessExpiry, ACCESS_TOKEN_EXPIRE_MINUTES]

theorem accessExpiry_some (now d : Nat) (hd : d ≠ 0) :
    accessExpiry now (some d) = now + d := by
  simp [accessExpiry, hd]

/-- What `verify_token` returns on a token this service issued. -/
theorem verify_token_create (data : JwtPayload) (key : String) (now t : Nat)
    (delta : Option Nat) :
    verify_token key t (create_access_token data key now delta) =
      if accessExpiry now delta ≤ t then none
      else
        match data.sub, data.user_id with
        | some u, some i => some (⟨u, i⟩ : TokenData)
        | _, _ => none := by
  rw [create_access_token_eq, verify_token, jwt_decode_encode]
  by_cases h : accessExpiry now delta ≤ t
  · simp [h]
  · simp [h]

/-- A fresh default-TTL token resolves its subject row while unexpired. -/
theorem get_current_user_fresh (key : String) (now t : Nat) (db : List User)
    (uname : String) (uid : Int) (user : User)
    (ht : t < now + 30 * 60)
    (hfind : (db.find? fun u => u.username == uname) = some user)
    (hactive : user.is_active = true) :
    get_current_user key t
      (create_access_token ⟨some uname, some uid, none, none⟩ key now none) db = .ok user := by
  rw [get_current_user, verify_token_create]
  have hexp : ¬ (accessExpiry now none ≤ t) := by
    rw [accessExpiry_none]
    omega
  simp only [if_neg hexp]
  simp [hfind, hactive]

/-- `take 1` of `drop i` is the `i`-th element. -/
theorem drop_take_one : ∀ {α : Type} (l : List α) (i : Nat) (hi : i < l.length),
    (l.drop i).take 1 = [l.get ⟨i, hi⟩]
  | _, a :: l, 0, _ => rfl
  | _, a :: l, i + 1, hi => drop_take_one l i (by simpa using hi)
  | _, [], i, hi => absurd hi (by simp)

/-! ### Claim theorems -/

/-- **C8**: token issuance uses a default time-to-live of 30 minutes for
access tokens and 7 days for refresh tokens, embedding the absolute expiry
instant `now + ttl` in the signed token; with the verifying clock `t` an
explicit parameter, a default-TTL access token verifies at every `t` strictly
before `now + 30min` and verification returns the generic `none` at every
instant from expiry on, and likewise for the 7-day refresh token. -/
theorem C8_token_ttl (user : User) (uname : String) (uid : Int) (key : String)
    (now t : Nat) :
    (t < now + 30 * 60 →
      verify_token key t (create_access_token ⟨some uname, some uid, none, none⟩ key now none)
        = some ⟨uname, uid⟩) ∧
    (now + 30 * 60 ≤ t →
      verify_token key t (create_access_token ⟨some uname, some uid, none, none⟩ key now none)
        = none) ∧
    jwt_decode (create_access_token ⟨some uname, some uid, none, none⟩ key now none) key t
      = (if now + 30 * 60 ≤ t then none
         else some ⟨some uname, some uid, some (now + 30 * 60), none⟩) ∧
    (t < now + 30 * 60 →
      verify_token key t (create_user_tokens user key now).access_token
        = some ⟨user.username, user.id⟩) ∧
    (t < now + 7 * 24 * 60 * 60 →
      verify_token key t (create_user_tokens user key now).refresh_token
        = some ⟨user.username, user.id⟩) ∧
    (now + 7 * 24 * 60 * 60 ≤ t →
      verify_token key t (create_user_tokens user key now).refresh_token = none) := by
  have h30 : accessExpiry now none = now + 30 * 60 := accessExpiry_none now
  have h30' : accessExpiry now (some (ACCESS_TOKEN_EXPIRE_MINUTES * 60)) = now + 30 * 60 := by
    rw [accessExpiry_some now _ (by norm_num [ACCESS_TOKEN_EXPIRE_MINUTES])]
    norm_num [ACCESS_TOKEN_EXPIRE_MINUTES]
  have h7d : accessExpiry now (some (7 * 86400)) = now + 7 * 24 * 60 * 60 := by
    rw [accessExpiry_some now _ (by norm_num)]
  refine ⟨?_, ?_, ?_, ?_, ?_, ?_⟩
  · intro ht
    rw [verify_token_create, h30, if_neg (by omega)]
  · intro ht
    rw [verify_token_create, h30, if_pos (by omega)]
  · rw [create_access_token_eq, jwt_decode_encode, h30]
  · intro ht
    rw [create_user_tokens, verify_token_create, h30', if_neg (by omega)]
  · intro ht
    rw [create_user_tokens, verify_token_create, h7d, if_neg (by omega)]
  · intro ht
    rw [create_user_tokens, verify_token_create, h7d, if_pos (by omega)]

/-- Witness for C8 at concrete inputs: a token issued at `now = 0` for
`user_id = 7`, `username = "amy"` verifies at `t = 1799` and is rejected at
`t = 1800`. -/
theorem C8_token_ttl_witness :
    verify_token "k" 1799 (create_access_token ⟨some "amy", some 7, none, none⟩ "k" 0 none)
      = some ⟨"amy", 7⟩ ∧
    verify_token "k" 1800 (create_access_token ⟨some "amy", some 7, none, none⟩ "k" 0 none)
      = none :=
  ⟨(C8_token_ttl ⟨7, "amy", "a", ⟨0, 0⟩, none, none, none, none, none, none, 0, true⟩
      "amy" 7 "k" 0 1799).1 (by omega),
   (C8_token_ttl ⟨7, "amy", "a", ⟨0, 0⟩, none, none, none, none, none, none, 0, true⟩
      "amy" 7 "k" 0 1800).2.1 (by omega)⟩

/-- **C9**: authentication resolves the account solely from the token's
subject-username claim: two valid tokens differing only in the `user_id`
claim resolve identically through `get_current_user`, while a token missing
the `user_id` claim fails verification (the claim must be present but its
value is ignored). -/
theorem C9_user_id_ignored (key : String) (now t : Nat) (db : List User)
    (uname : String) (i1 i2 : Int) :
    (∀ (e : Option Nat) (ty : Option String),
      get_current_user key t (jwt_encode ⟨some uname, some i1, e, ty⟩ key) db =
        get_current_user key t (jwt_encode ⟨some uname, some i2, e, ty⟩ key) db) ∧
    get_current_user key t
        (create_access_token ⟨some uname, some i1, none, none⟩ key now none) db =
      get_current_user key t
        (create_access_token ⟨some uname, some i2, none, none⟩ key now none) db ∧
    (∀ ty : Option String,
      verify_token key t (create_access_token ⟨some uname, none, none, ty⟩ key now none) = none) := by
  refine ⟨?_, ?_, ?_⟩
  · intro e ty
    rw [get_current_user, get_current_user, verify_token, verify_token,
      jwt_decode_encode, jwt_decode_encode]
    cases e with
    | none => rfl
    | some e' =>
      by_cases hle : e' ≤ t
      · simp [hle]
      · simp [hle]
  · rw [get_current_user, get_current_user, verify_token_create, verify_token_create]
    by_cases h : accessExpiry now none ≤ t
    · simp [h]
    · simp [h]
  · intro ty
    rw [verify_token_create]
    by_cases h : accessExpiry now none ≤ t <;> simp [h]

/-- **C10**: `GET users` is not restricted to the caller's own account: for
any caller the guard accepts, the response is the `skip`/`limit` page of the
whole stored table (active and inactive rows alike) rendered as full
profiles, independent of the caller's identity; in particular every stored
row is returned at `skip = i`, `limit = 1`. -/
theorem C10_get_all_users (key : String) (now : Nat) (db : List User) (token : String) :
    (∀ caller, get_current_user key now token db = .ok caller →
      ∀ skip limit, get_all_users key now token skip limit db =
        .ok (((db.drop skip).take limit).map toUserResponse)) ∧
    (∀ caller, get_current_user key now token db = .ok caller →
      ∀ i, (hi : i < db.length) →
        get_all_users key now token i 1 db = .ok [toUserResponse (db.get ⟨i, hi⟩)]) := by
  constructor
  · intro caller hok skip limit
    rw [get_all_users, hok]
  · intro caller hok i hi
    rw [get_all_users, hok, drop_take_one db i hi]
    rfl

/-- Witness for C10: with a two-row table, an authenticated caller ("amy")
retrieves the other, deactivated account's ("bob") full profile at
`skip = 1`, `limit = 1`. -/
theorem C10_get_all_users_witness :
    get_all_users "k" 0 (create_access_token ⟨some "amy", some 1, none, none⟩ "k" 0 none) 1 1
      [⟨1, "amy", "a@x.com", ⟨0, 0⟩, none, none, none, none, none, none, 0, true⟩,
       ⟨2, "bob", "b@x.com", ⟨0, 0⟩, none, none, none, none, none, none, 0, false⟩]
      = .ok [toUserResponse
          ⟨2, "bob", "b@x.com", ⟨0, 0⟩, none, none, none, none, none, none, 0, false⟩] :=
  (C10_get_all_users "k" 0
      [⟨1, "amy", "a@x.com", ⟨0, 0⟩, none, none, none, none, none, none, 0, true⟩,
       ⟨2, "bob", "b@x.com", ⟨0, 0⟩, none, none, none, none, none, none, 0, false⟩]
      (create_access_token ⟨some "amy", some 1, none, none⟩ "k" 0 none)).2
    ⟨1, "amy", "a@x.com", ⟨0, 0⟩, none, none, none, none, none, none, 0, true⟩
    (get_current_user_fresh "k" 0 0 _ "amy" 1 _ (by omega) (by decide) rfl)
    1 (by decide)

/-- **C5**: login fails with the identical 401 "Incorrect username or
password" both when no account with the given username exists and when the
password does not verify; it fails 400 "Inactive user" when the credentials
verify but the account is deactivated; on success it returns a newly issued
default-TTL access token, token type "bearer", and the account's id and
username — and that fresh token verifies to the account's username and id. -/
theorem C5_login (username password : String) (db : List User) (key : String) (now : Nat) :
    ((db.find? fun u => u.username == username) = none →
      login_user username password db key now =
        .error ⟨401, "Incorrect username or password"⟩) ∧
    (∀ user, (db.find? fun u => u.username == username) = some user →
      user.verify_password password = false →
      login_user username password db key now =
        .error ⟨401, "Incorrect username or password"⟩) ∧
    (∀ user, (db.find? fun u => u.username == username) = some user →
      user.verify_password password = true → user.is_active = false →
      login_user username password db key now = .error ⟨400, "Inactive user"⟩) ∧
    (∀ user, (db.find? fun u => u.username == username) = some user →
      user.verify_password password = true → user.is_active = true →
      login_user username password db key now = .ok
        { access_token :=
            create_access_token ⟨some user.username, some user.id, none, none⟩ key now none
          token_type := "bearer"
          user_id := user.id
          username := user.username } ∧
      verify_token key now
          (create_access_token ⟨some user.username, some user.id, none, none⟩ key now none)
        = some ⟨user.username, user.id⟩) := by
  refine ⟨?_, ?_, ?_, ?_⟩
  · intro h
    rw [login_user, h]
  · intro user hf hv
    rw [login_user, hf]
    simp [hv]
  · intro user hf hv ha
    rw [login_user, hf]
    simp [hv, ha]
  · intro user hf hv ha
    constructor
    · rw [login_user, hf]
      simp [hv, ha]
    · rw [verify_token_create, accessExpiry_none, if_neg (by omega)]

/-- Witness for C5: a stored active account logs in successfully and receives
the expected token response. -/
theorem C5_login_witness :
    login_user "amy" "secret12"
      [⟨7, "amy", "a@x.com", bcrypt_hashpw "secret12" 0,
        none, none, none, none, none, none, 0, true⟩] "k" 0
      = .ok { access_token := create_access_token ⟨some "amy", some 7, none, none⟩ "k" 0 none
              token_type := "bearer"
              user_id := 7
              username := "amy" } :=
  ((C5_login "amy" "secret12"
      [⟨7, "amy", "a@x.com", bcrypt_hashpw "secret12" 0,
        none, none, none, none, none, none, 0, true⟩] "k" 0).2.2.2
    ⟨7, "amy", "a@x.com", bcrypt_hashpw "secret12" 0,
      none, none, none, none, none, none, 0, true⟩
    (by decide) (by decide) rfl).1

/-- A history of `set_password` calls, applied in order. -/
def setPasswordSeq (u : User) : List (String × Nat) → User
  | [] => u
  | (p, s) :: rest => setPasswordSeq (u.set_password p s) rest

theorem setPasswordSeq_append (u : User) (ops : List (String × Nat)) (op : String × Nat) :
    setPasswordSeq u (ops ++ [op]) = (setPasswordSeq u ops).set_password op.1 op.2 := by
  induction ops generalizing u with
  | nil => rfl
  | cons o os ih =>
    obtain ⟨p, s⟩ := o
    simpa [setPasswordSeq] using ih (u.set_password p s)

/-- **C6**: after any history of `set_password` calls ending with password
`q` (under salt `salt`), `verify_password p` returns true iff `p` equals the
most recently set password `q`; `verify_password` is a total boolean function
(mismatches return `false`, nothing is thrown), and the stored verifier is
exactly the salt plus the salted one-way digest of `q` — never the plaintext
(irreversibility is the idealized collision-free digest's defining modelling
assumption for bcrypt). -/
theorem C6_verify_password_roundtrip (u : User) (ops : List (String × Nat))
    (q : String) (salt : Nat) (p : String) :
    ((setPasswordSeq u (ops ++ [(q, salt)])).verify_password p = true ↔ p = q) ∧
    (setPasswordSeq u (ops ++ [(q, salt)])).hashed_password
      = ⟨salt, bcryptDigest salt q⟩ := by
  rw [setPasswordSeq_append]
  refine ⟨?_, rfl⟩
  rw [User.verify_password]
  exact bcrypt_checkpw_hashpw_iff p q salt

/-- **C7**: for an account whose stored verifier was produced from password
`cur`, `change_password` succeeds iff the supplied current password is `cur`,
the new password differs from `cur`, and the new password has length at least
8; on any failure it returns a 400 client error and leaves the stored row
(hence the hash) unchanged; on success the verifier is re-hashed from the new
password. -/
theorem C7_change_password (cu : User) (cur : String) (s0 : Nat)
    (hcu : cu.hashed_password = bcrypt_hashpw cur s0)
    (pd : PasswordChange) (salt : Nat) :
    ((change_password pd cu salt).1 = none ↔
      (pd.current_password = cur ∧ pd.new_password ≠ cur ∧ 8 ≤ pd.new_password.length)) ∧
    (∀ e, (change_password pd cu salt).1 = some e →
      (change_password pd cu salt).2 = cu ∧ e.status_code = 400) ∧
    ((change_password pd cu salt).1 = none →
      (change_password pd cu salt).2 = cu.set_password pd.new_password salt) := by
  have hv : ∀ x, cu.verify_password x = true ↔ x = cur := by
    intro x
    rw [User.verify_password, hcu]
    exact bcrypt_checkpw_hashpw_iff x cur s0
  by_cases h1 : pd.current_password = cur
  · have hb1 : cu.verify_password pd.current_password = true := (hv _).mpr h1
    by_cases h2 : pd.new_password = cur
    · have hb2 : cu.verify_password pd.new_password = true := (hv _).mpr h2
      have hcp : change_password pd cu salt =
          (some ⟨400, "New password must be different from current password"⟩, cu) := by
        simp [change_password, hb1, hb2]
      rw [hcp]
      refine ⟨by simp [h2], ?_, by simp⟩
      intro e he
      obtain rfl : (⟨400, "New password must be different from current password"⟩ : HTTPError)
          = e := by simpa using he
      exact ⟨rfl, rfl⟩
    · have hb2 : cu.verify_password pd.new_password = false :=
        Bool.eq_false_iff.mpr fun hbb => h2 ((hv _).mp hbb)
      by_cases h3 : pd.new_password.length < 8
      · have hcp : change_password pd cu salt =
            (some ⟨400, "New password must be at least 8 characters long"⟩, cu) := by
          simp [change_password, hb1, hb2, h3]
        rw [hcp]
        refine ⟨by simp; omega, ?_, by simp⟩
        intro e he
        obtain rfl : (⟨400, "New password must be at least 8 characters long"⟩ : HTTPError)
            = e := by simpa using he
        exact ⟨rfl, rfl⟩
      · have hcp : change_password pd cu salt =
            (none, cu.set_password pd.new_password salt) := by
          simp [change_password, hb1, hb2, h3]
        rw [hcp]
        exact ⟨by simp [h1, h2]; omega, by simp, fun _ => rfl⟩
  · have hb1 : cu.verify_password pd.current_password = false :=
      Bool.eq_false_iff.mpr fun hbb => h1 ((hv _).mp hbb)
    have hcp : change_password pd cu salt =
        (some ⟨400, "Current password is incorrect"⟩, cu) := by
      simp [change_password, hb1]
    rw [hcp]
    refine ⟨by simp [h1], ?_, by simp⟩
    intro e he
    obtain rfl : (⟨400, "Current password is incorrect"⟩ : HTTPError) = e := by simpa using he
    exact ⟨rfl, rfl⟩

/-- Witness for C7: with the stored verifier set from "oldsecret", changing
to "newsecret" (correct current password, different, length 9) succeeds. -/
theorem C7_change_password_witness :
    (change_password ⟨"oldsecret", "newsecret"⟩
      ⟨1, "amy", "a@x.com", bcrypt_hashpw "oldsecret" 5,
        none, none, none, none, none, none, 0, true⟩ 6).1 = none :=
  ((C7_change_password
      ⟨1, "amy", "a@x.com", bcrypt_hashpw "oldsecret" 5,
        none, none, none, none, none, none, 0, true⟩
      "oldsecret" 5 rfl ⟨"oldsecret", "newsecret"⟩ 6).1).mpr
    ⟨rfl, by decide, by decide⟩

/-- Every error `get_current_user` itself produces is the one generic 401. -/
theorem get_current_user_error_eq (key : String) (now : Nat) (token : String)
    (db : List User) (e : HTTPError) :
    get_current_user key now token db = .error e → e = credentials_exception := by
  intro h
  rw [get_current_user] at h
  split at h
  · injection h with h
    exact h.symm
  · split at h
    · injection h with h
      exact h.symm
    · split at h
      · simp at h
      · injection h with h
        exact h.symm

/-- **C1** (amended): the session guard returns the resolved account iff the
bearer token verifies and its subject username resolves to an existing,
active account; the malformed/expired-token, unknown-username and
deactivated-account failures all raise the literally identical generic
`credentials_exception` (so a deactivated account's still-unexpired token is
indistinguishable from a bad token), and every failure of the request-level
guard carries the 401 Unauthorized status — but a missing bearer token is
rejected by the framework dependency with the different detail
"Not authenticated", not the same generic message. -/
theorem C1_session_guard (key : String) (now : Nat) (db : List User) :
    (∀ token user, get_current_user key now token db = .ok user ↔
      ∃ td, verify_token key now token = some td ∧
        (db.find? fun u => u.username == td.username) = some user ∧
        user.is_active = true) ∧
    (∀ token, verify_token key now token = none →
      get_current_user key now token db = .error credentials_exception) ∧
    (∀ token td, verify_token key now token = some td →
      (db.find? fun u => u.username == td.username) = none →
      get_current_user key now token db = .error credentials_exception) ∧
    (∀ token td user, verify_token key now token = some td →
      (db.find? fun u => u.username == td.username) = some user →
      user.is_active = false →
      get_current_user key now token db = .error credentials_exception) ∧
    authenticate key now none db = .error ⟨401, "Not authenticated"⟩ ∧
    (∀ auth e, authenticate key now auth db = .error e → e.status_code = 401) := by
  refine ⟨?_, ?_, ?_, ?_, rfl, ?_⟩
  · intro token user
    constructor
    · intro h
      rw [get_current_user] at h
      split at h
      · simp at h
      · next td heq =>
        split at h
        · simp at h
        · next u2 hfind2 =>
          split at h
          · next hact =>
            injection h with h
            subst h
            exact ⟨td, heq, hfind2, hact⟩
          · simp at h
    · rintro ⟨td, htd, hfind, hact⟩
      simp [get_current_user, htd, hfind, hact]
  · intro token hv
    simp [get_current_user, hv]
  · intro token td hv hf
    simp [get_current_user, hv, hf]
  · intro token td user hv hf ha
    simp [get_current_user, hv, hf, ha]
  · intro auth e he
    cases auth with
    | none =>
      simp only [authenticate, oauth2_scheme_call] at he
      injection he with he
      rw [← he]
    | some pr =>
      obtain ⟨scheme, tok⟩ := pr
      simp only [authenticate, oauth2_scheme_call] at he
      by_cases hs : lowerStr scheme = "bearer"
      · rw [if_pos hs] at he
        rw [get_current_user_error_eq key now tok db e he]
        rfl
      · rw [if_neg hs] at he
        injection he with he
        rw [← he]

/-- Counterexample to C1 as stated: for the request-level guard, the
missing-token failure and the malformed-token failure are both 401 but carry
different detail messages, so the failure cases do not all share one generic
message. -/
theorem C1_counterexample :
    authenticate "k" 0 none [] = .error ⟨401, "Not authenticated"⟩ ∧
    authenticate "k" 0 (some ("bearer", "x")) []
      = .error ⟨401, "Could not validate credentials"⟩ ∧
    ("Not authenticated" : String) ≠ "Could not validate credentials" := by
  refine ⟨rfl, ?_, by decide⟩
  rfl

/-- Witness for C1: a deactivated account's fresh, unexpired token is
rejected with exactly the generic `credentials_exception`. -/
theorem C1_session_guard_witness :
    get_current_user "k" 0 (create_access_token ⟨some "amy", some 7, none, none⟩ "k" 0 none)
      [⟨7, "amy", "a@x.com", ⟨0, 0⟩, none, none, none, none, none, none, 0, false⟩]
      = .error credentials_exception :=
  (C1_session_guard "k" 0
      [⟨7, "amy", "a@x.com", ⟨0, 0⟩, none, none, none, none, none, none, 0, false⟩]).2.2.2.1
    (create_access_token ⟨some "amy", some 7, none, none⟩ "k" 0 none)
    ⟨"amy", 7⟩
    ⟨7, "amy", "a@x.com", ⟨0, 0⟩, none, none, none, none, none, none, 0, false⟩
    (by rw [verify_token_create, accessExpiry_none]; norm_num)
    (by decide) rfl

/-- Closed form of `update_user_profile`: a supplied field overwrites, a None
field keeps the stored value, a non-empty password re-hashes; id, username,
email, created_at and the active flag are untouched. -/
theorem update_user_profile_eq (uc : UserCreate) (cu : User) (salt : Nat) :
    update_user_profile uc cu salt =
      { cu with
        full_name := uc.full_name.or cu.full_name
        age := uc.age.or cu.age
        weight := uc.weight.or cu.weight
        height := uc.height.or cu.height
        activity_level := uc.activity_level.or cu.activity_level
        daily_calorie_goal := uc.daily_calorie_goal.or cu.daily_calorie_goal
        hashed_password :=
          if uc.password = "" then cu.hashed_password
          else bcrypt_hashpw uc.password salt } := by
  obtain ⟨un, em, pw, fn, ag, w, h, al, dg⟩ := uc
  by_cases hpw : pw = "" <;>
    cases fn <;> cases ag <;> cases w <;> cases h <;> cases al <;> cases dg <;>
      simp [update_user_profile, User.set_password, hpw, Option.or]

/-- **C2** (amended): the handler's own field copying is partial — None
fields keep the stored values, supplied fields overwrite, a non-empty
password re-hashes — but the update body is the `UserCreate` model, so
`username`, `email` and `password` are required (a body containing only
`{age: 31}` is rejected with a 422 validation error and changes nothing),
and an absent `activity_level` or `daily_calorie_goal` arrives as the model
default ("moderate" / 2000) and therefore overwrites the stored value; only
an explicit null leaves those two untouched. -/
theorem C2_profile_update (cu : User) (uc : UserCreate) (salt : Nat) :
    update_user_profile uc cu salt =
      { cu with
        full_name := uc.full_name.or cu.full_name
        age := uc.age.or cu.age
        weight := uc.weight.or cu.weight
        height := uc.height.or cu.height
        activity_level := uc.activity_level.or cu.activity_level
        daily_calorie_goal := uc.daily_calorie_goal.or cu.daily_calorie_goal
        hashed_password :=
          if uc.password = "" then cu.hashed_password
          else bcrypt_hashpw uc.password salt } ∧
    (∀ r : RawUserCreate,
      r.username = .absent ∨ r.email = .absent ∨ r.password = .absent →
      put_me r cu salt = .error ⟨422, "Unprocessable Entity"⟩) ∧
    (∀ r uc', parseUserCreate r = some uc' →
      (r.activity_level = .absent → uc'.activity_level = some "moderate") ∧
      (r.daily_calorie_goal = .absent → uc'.daily_calorie_goal = some 2000) ∧
      (r.age = .absent ∨ r.age = .null → uc'.age = none) ∧
      (r.weight = .absent ∨ r.weight = .null → uc'.weight = none) ∧
      (∀ v, r.age = .val v → uc'.age = some v)) := by
  refine ⟨update_user_profile_eq uc cu salt, ?_, ?_⟩
  · intro r h
    rcases h with h | h | h
    · simp [put_me, parseUserCreate, h, reqField]
    · cases hu : reqField r.username <;>
        simp [put_me, parseUserCreate, h, hu, reqField]
    · cases hu : reqField r.username <;> cases he : reqField r.email <;>
        simp [put_me, parseUserCreate, h, hu, he, reqField]
  · intro r uc' hp
    rw [parseUserCreate] at hp
    simp only [Option.bind_eq_some, Option.map_eq_some'] at hp
    obtain ⟨u, hu, e, he, p, hpw, fn, hfn, ag, hag, w, hw, h, hh, al, hal, dg, hdg, rfl⟩ := hp
    refine ⟨?_, ?_, ?_, ?_, ?_⟩
    · intro hA
      rw [hA] at hal
      injection hal with hal
      exact hal.symm
    · intro hA
      rw [hA] at hdg
      injection hdg with hdg
      exact hdg.symm
    · intro hA
      rcases hA with hA | hA <;>
        (rw [hA] at hag; injection hag with hag; exact hag.symm)
    · intro hA
      rcases hA with hA | hA <;>
        (rw [hA] at hw; injection hw with hw; exact hw.symm)
    · intro v hA
      rw [hA] at hag
      injection hag with hag
      exact hag.symm

/-- Counterexample to C2 as stated: applying a body of only `{age: 31}` to an
account with `age = 30`, `weight = 70` does not succeed — it is rejected with
a 422 validation error; and even a body carrying the required fields but no
`activity_level`/`daily_calorie_goal` silently overwrites those stored values
("active"/1800) with the model defaults ("moderate"/2000). -/
theorem C2_counterexample :
    put_me ⟨.absent, .absent, .absent, .absent, .val 31, .absent, .absent, .absent, .absent⟩
      ⟨1, "bob", "b@x.com", ⟨0, 0⟩, none, some 30, some 70, none,
        some "active", some 1800, 0, true⟩ 0
      = .error ⟨422, "Unprocessable Entity"⟩ ∧
    put_me ⟨.val "bob", .val "b@x.com", .val "pw123456", .absent, .val 31,
        .absent, .absent, .absent, .absent⟩
      ⟨1, "bob", "b@x.com", ⟨0, 0⟩, none, some 30, some 70, none,
        some "active", some 1800, 0, true⟩ 0
      = .ok ⟨1, "bob", "b@x.com", bcrypt_hashpw "pw123456" 0, none, some 31, some 70, none,
          some "moderate", some 2000, 0, true⟩ :=
  ⟨rfl, rfl⟩

/-- Witness for C2: a body whose `email` field is absent fails validation. -/
theorem C2_profile_update_witness :
    put_me ⟨.val "bob", .absent, .val "pw123456", .absent, .absent,
        .absent, .absent, .absent, .absent⟩
      ⟨1, "bob", "b@x.com", ⟨0, 0⟩, none, none, none, none, none, none, 0, true⟩ 0
      = .error ⟨422, "Unprocessable Entity"⟩ :=
  (C2_profile_update
      ⟨1, "bob", "b@x.com", ⟨0, 0⟩, none, none, none, none, none, none, 0, true⟩
      ⟨"", "", "", none, none, none, none, none, none⟩ 0).2.1
    ⟨.val "bob", .absent, .val "pw123456", .absent, .absent,
      .absent, .absent, .absent, .absent⟩
    (Or.inr (Or.inl rfl))

/-- A row appended at the end is found when its predicate holds. -/
theorem find?_append_singleton_isSome {α : Type} (p : α → Bool) (u : α)
    (hu : p u = true) (l : List α) : ((l ++ [u]).find? p).isSome = true := by
  induction l with
  | nil => simp [List.find?, hu]
  | cons a l ih =>
    by_cases ha : p a = true
    · simp [List.find?_cons_of_pos _ ha]
    · simpa [List.find?_cons_of_neg _ ha] using ih

/-- **C3** (amended): each pre-insert existence check rejects a duplicate
username (regardless of email) or a duplicate email with a 400; once a row
with a username is stored, re-registering that username fails 400; but a
uniqueness violation raised by the store at insert time — after the
pre-checks passed — is rolled back and surfaced as a 500 generic server
error, not as the 400 DuplicateIdentity client error. -/
theorem C3_register (d : UserCreate) (checkDb insertDb : List User)
    (newId : Int) (salt now : Nat) :
    ((checkDb.find? fun u => u.username == d.username).isSome = true →
      register_user d checkDb insertDb newId salt now =
        (.error ⟨400, "Username already registered"⟩, insertDb)) ∧
    ((checkDb.find? fun u => u.username == d.username) = none →
      (checkDb.find? fun u => u.email == d.email).isSome = true →
      register_user d checkDb insertDb newId salt now =
        (.error ⟨400, "Email already registered"⟩, insertDb)) ∧
    ((checkDb.find? fun u => u.username == d.username) = none →
      (checkDb.find? fun u => u.email == d.email) = none →
      (insertDb.any fun u => u.username == d.username || u.email == d.email) = true →
      register_user d checkDb insertDb newId salt now =
        (.error ⟨500, "Failed to create user: UNIQUE constraint failed"⟩, insertDb)) ∧
    ((checkDb.find? fun u => u.username == d.username) = none →
      (checkDb.find? fun u => u.email == d.email) = none →
      (insertDb.any fun u => u.username == d.username || u.email == d.email) = false →
      ∃ newUser,
        register_user d checkDb insertDb newId salt now = (.ok newUser, insertDb ++ [newUser]) ∧
        newUser.username = d.username ∧ newUser.email = d.email ∧
        newUser.hashed_password = bcrypt_hashpw d.password salt ∧
        newUser.is_active = true) ∧
    (∀ rest newUser, newUser.username = d.username →
      ∀ (d2 : UserCreate) (newId2 : Int) (salt2 now2 : Nat), d2.username = d.username →
      register_user d2 (rest ++ [newUser]) (rest ++ [newUser]) newId2 salt2 now2 =
        (.error ⟨400, "Username already registered"⟩, rest ++ [newUser])) := by
  refine ⟨?_, ?_, ?_, ?_, ?_⟩
  · intro h
    simp [register_user, h]
  · intro h1 h2
    simp [register_user, h1, h2]
  · intro h1 h2 h3
    simp [register_user, h1, h2, h3]
  · intro h1 h2 h3
    refine ⟨⟨newId, d.username, d.email, bcrypt_hashpw d.password salt, d.full_name,
        d.age, d.weight, d.height, d.activity_level, d.daily_calorie_goal, now, true⟩,
      ?_, rfl, rfl, rfl, rfl⟩
    simp [register_user, h1, h2, h3]
  · intro rest newUser hname d2 newId2 salt2 now2 hname2
    have hfound : (((rest ++ [newUser]).find? fun u => u.username == d2.username).isSome) = true := by
      refine find?_append_singleton_isSome _ newUser ?_ rest
      rw [hname, hname2]
      simp
    unfold register_user
    rw [if_pos hfound]

/-- Counterexample to C3 as stated: with the pre-checks passing on their
snapshot but a row with the same username/email present at insert time (the
racy window the spec describes), registration surfaces a 500 — a generic
server error, not the claimed 400 DuplicateIdentity client outcome — though
the store is left rolled back (unchanged). -/
theorem C3_counterexample :
    register_user ⟨"bob", "b@x.com", "pw123456", none, none, none, none,
        some "moderate", some 2000⟩
      [] [⟨1, "bob", "b@x.com", ⟨0, 0⟩, none, none, none, none, none, none, 0, true⟩] 2 0 0
      = (.error ⟨500, "Failed to create user: UNIQUE constraint failed"⟩,
         [⟨1, "bob", "b@x.com", ⟨0, 0⟩, none, none, none, none, none, none, 0, true⟩]) ∧
    (500 : Nat) ≠ 400 :=
  ⟨rfl, by decide⟩

/-- Witness for C3: re-registering the stored username "bob" under a
different email fails with the 400 duplicate-username error. -/
theorem C3_register_witness :
    register_user ⟨"bob", "c@y.com", "pw123456", none, none, none, none,
        some "moderate", some 2000⟩
      [⟨1, "bob", "b@x.com", ⟨0, 0⟩, none, none, none, none, none, none, 0, true⟩]
      [⟨1, "bob", "b@x.com", ⟨0, 0⟩, none, none, none, none, none, none, 0, true⟩] 2 0 0
      = (.error ⟨400, "Username already registered"⟩,
         [⟨1, "bob", "b@x.com", ⟨0, 0⟩, none, none, none, none, none, none, 0, true⟩]) :=
  (C3_register ⟨"bob", "c@y.com", "pw123456", none, none, none, none,
      some "moderate", some 2000⟩
    [⟨1, "bob", "b@x.com", ⟨0, 0⟩, none, none, none, none, none, none, 0, true⟩]
    [⟨1, "bob", "b@x.com", ⟨0, 0⟩, none, none, none, none, none, none, 0, true⟩]
    2 0 0).1 (by decide)

/-- **C4**: `verify_token` is a total function into `Option` — the claims on
success, the single value `none` on failure (the code catches every
`InvalidTokenError`; in the embedding totality is by construction, so no
exception escapes) — and it returns the identical `none` on every structural
failure (wrong segment count, bad header, missing `sub` or `user_id` claim),
every signature failure (a signature segment differing from the recomputed
tag, including any single-character tampering of a valid token's signature
segment), and every expiry failure (`exp` not strictly in the future), so
callers cannot distinguish malformed from expired. -/
theorem C4_verify_token_invalid (key : String) (now : Nat) :
    (∀ token : String, (splitOnChar '.' token.data).length ≠ 3 →
      verify_token key now token = none) ∧
    (∀ (token : String) (h ps sg : List Char),
      splitOnChar '.' token.data = [h, ps, sg] →
      h ≠ hdrChars ∨ sg ≠ macFn key (hdrChars ++ '.' :: ps) →
      verify_token key now token = none) ∧
    (∀ (token : String) (p : JwtPayload), jwt_decode token key now = some p →
      p.sub = none ∨ p.user_id = none → verify_token key now token = none) ∧
    (∀ (p : JwtPayload) (e : Nat), p.exp = some e → e ≤ now →
      verify_token key now (jwt_encode p key) = none) ∧
    (∀ (p : JwtPayload) (i : Nat) (c : Char)
      (hi : i < (macFn key (hdrChars ++ '.' :: encPayload p)).length),
      c ≠ (macFn key (hdrChars ++ '.' :: encPayload p)).get ⟨i, hi⟩ →
      verify_token key now
        ⟨(hdrChars ++ '.' :: encPayload p) ++ '.' ::
          (macFn key (hdrChars ++ '.' :: encPayload p)).set i c⟩ = none) ∧
    (∀ (u : String) (iv : Int) (e : Nat) (ty : Option String), now < e →
      verify_token key now (jwt_encode ⟨some u, some iv, some e, ty⟩ key) = some ⟨u, iv⟩) := by
  refine ⟨?_, ?_, ?_, ?_, ?_, ?_⟩
  · intro token hlen
    rw [verify_token, jwt_decode]
    cases hsp : splitOnChar '.' token.data with
    | nil => rfl
    | cons a as =>
      cases as with
      | nil => rfl
      | cons b bs =>
        cases bs with
        | nil => rfl
        | cons c cs =>
          cases cs with
          | nil => exact absurd (by simp [hsp]) hlen
          | cons dd dds => rfl
  · intro token h ps sg hsp hbad
    rcases hbad with hbad | hbad
    · simp [verify_token, jwt_decode, hsp, hbad]
    · by_cases hh : h = hdrChars
      · simp [verify_token, jwt_decode, hsp, hh, hbad]
      · simp [verify_token, jwt_decode, hsp, hh]
  · intro token p hdec hmiss
    rcases hmiss with hm | hm
    · simp [verify_token, hdec, hm]
    · cases hs : p.sub with
      | none => simp [verify_token, hdec, hs]
      | some u => simp [verify_token, hdec, hs, hm]
  · intro p e hexp hle
    simp [verify_token, jwt_decode_encode, hexp, hle]
  · intro p i c hi hc
    rw [verify_token, jwt_decode]
    by_cases hdot : c = '.'
    · subst hdot
      have hset : (macFn key (hdrChars ++ '.' :: encPayload p)).set i '.' =
          (macFn key (hdrChars ++ '.' :: encPayload p)).take i ++
            '.' :: (macFn key (hdrChars ++ '.' :: encPayload p)).drop (i + 1) := by
        rw [List.set_eq_take_append_cons_drop, if_pos hi]
      have hsplit : splitOnChar '.'
          ((hdrChars ++ '.' :: encPayload p) ++ '.' ::
            (macFn key (hdrChars ++ '.' :: encPayload p)).set i '.')
          = [hdrChars, encPayload p,
             (macFn key (hdrChars ++ '.' :: encPayload p)).take i,
             (macFn key (hdrChars ++ '.' :: encPayload p)).drop (i + 1)] := by
        rw [hset, List.append_assoc, List.cons_append,
          splitOnChar_append_sep '.' hdrChars _ hdrChars_not_mem_dot,
          splitOnChar_append_sep '.' _ _ (encPayload_not_mem_dot p),
          splitOnChar_append_sep '.' _ _
            (fun hmem => macFn_not_mem_dot key _ (List.mem_of_mem_take hmem)),
          splitOnChar_free '.' _
            (fun hmem => macFn_not_mem_dot key _ (List.mem_of_mem_drop hmem))]
      rw [show (⟨(hdrChars ++ '.' :: encPayload p) ++ '.' ::
            (macFn key (hdrChars ++ '.' :: encPayload p)).set i '.'⟩ : String).data =
          (hdrChars ++ '.' :: encPayload p) ++ '.' ::
            (macFn key (hdrChars ++ '.' :: encPayload p)).set i '.' from rfl, hsplit]
    · have hfree : '.' ∉ (macFn key (hdrChars ++ '.' :: encPayload p)).set i c := by
        intro hmem
        rcases List.mem_or_eq_of_mem_set hmem with hm | hm
        · exact macFn_not_mem_dot key _ hm
        · exact hdot hm.symm
      have hsplit : splitOnChar '.'
          ((hdrChars ++ '.' :: encPayload p) ++ '.' ::
            (macFn key (hdrChars ++ '.' :: encPayload p)).set i c)
          = [hdrChars, encPayload p,
             (macFn key (hdrChars ++ '.' :: encPayload p)).set i c] := by
        rw [List.append_assoc, List.cons_append,
          splitOnChar_append_sep '.' hdrChars _ hdrChars_not_mem_dot,
          splitOnChar_append_sep '.' _ _ (encPayload_not_mem_dot p),
          splitOnChar_free '.' _ hfree]
      have hne : (macFn key (hdrChars ++ '.' :: encPayload p)).set i c ≠
          macFn key (hdrChars ++ '.' :: encPayload p) := by
        intro heq
        have ha : ((macFn key (hdrChars ++ '.' :: encPayload p)).set i c)[i]? = some c :=
          List.getElem?_set_self hi
        have hb : (macFn key (hdrChars ++ '.' :: encPayload p))[i]? =
            some ((macFn key (hdrChars ++ '.' :: encPayload p)).get ⟨i, hi⟩) := by
          rw [List.getElem?_eq_getElem hi]
          simp
        rw [heq] at ha
        rw [ha] at hb
        injection hb with hb
        exact hc hb
      rw [show (⟨(hdrChars ++ '.' :: encPayload p) ++ '.' ::
            (macFn key (hdrChars ++ '.' :: encPayload p)).set i c⟩ : String).data =
          (hdrChars ++ '.' :: encPayload p) ++ '.' ::
            (macFn key (hdrChars ++ '.' :: encPayload p)).set i c from rfl, hsplit]
      simp [hne]
  · intro u iv e ty hnow
    rw [verify_token, jwt_decode_encode]
    have hne : ¬ (e ≤ now) := by omega
    simp [hne]

/-- Witness for C4: flipping the first signature character of a valid token
to 'z' makes verification fail, while the untampered token verifies. -/
theorem C4_verify_token_invalid_witness :
    verify_token "k" 0
      ⟨(hdrChars ++ '.' :: encPayload ⟨some "amy", some 7, some 9999, none⟩) ++ '.' ::
        (macFn "k" (hdrChars ++ '.' :: encPayload ⟨some "amy", some 7, some 9999, none⟩)).set 0 'z'⟩
      = none ∧
    verify_token "k" 0 (jwt_encode ⟨some "amy", some 7, some 9999, none⟩ "k")
      = some ⟨"amy", 7⟩ :=
  ⟨(C4_verify_token_invalid "k" 0).2.2.2.2.1 ⟨some "amy", some 7, some 9999, none⟩ 0 'z'
      (by decide) (by decide),
   (C4_verify_token_invalid "k" 0).2.2.2.2.2 "amy" 7 9999 none (by decide)⟩

end FoodApp
